import Mathlib

/-!
Shallow embedding of `qlib/contrib/model/pytorch_gats.py` (the GAT model:
daily batching, masked loss/metric, train/test epochs, the fit loop with
early stopping, prediction, and the covariance-based cross-sample
attention), together with theorems settling the specification claims.

Conventions:
* float values that can be NaN or infinite are modelled by `Gats.FP`
  (a rational tagged with NaN / +inf / -inf cases, IEEE-style arithmetic);
* purely finite numerics (scores, hidden matrices, gradients) use `ℚ`;
* numpy / pandas errors (`IndexError`, length mismatches) are modelled by
  `Except String`;
* the recurrent sequence encoder and autodiff are external collaborators
  (the spec excludes them), so forward/gradient functions are parameters.
-/

namespace Gats

/-- Model of a Python/torch float scalar: finite rational, NaN, or ±infinity. -/
inductive FP where
  | nan : FP
  | inf : FP
  | ninf : FP
  | fin (q : ℚ) : FP
deriving DecidableEq, Repr

namespace FP

/-- Model of `torch.isnan` on a scalar. -/
def isnan : FP → Bool
  | nan => true
  | _ => false

/-- Model of `torch.isfinite` on a scalar: true only for finite values
(false for NaN and for ±infinity). -/
def isfinite : FP → Bool
  | fin _ => true
  | _ => false

/-- IEEE-style less-than on float scalars (the Python `<` with the
arguments swapped relative to `>`): any comparison involving NaN is
false, `-inf < x` for every non-NaN `x` other than `-inf` itself,
`x < inf` for every finite `x`. -/
def flt : FP → FP → Bool
  | nan, _ => false
  | _, nan => false
  | ninf, ninf => false
  | ninf, _ => true
  | _, ninf => false
  | inf, _ => false
  | fin _, inf => true
  | fin a, fin b => decide (a < b)

/-- IEEE-style negation. -/
def neg : FP → FP
  | nan => nan
  | inf => ninf
  | ninf => inf
  | fin q => fin (-q)

/-- IEEE-style addition: NaN propagates, inf + (-inf) = NaN. -/
def add : FP → FP → FP
  | nan, _ => nan
  | _, nan => nan
  | inf, ninf => nan
  | ninf, inf => nan
  | inf, _ => inf
  | _, inf => inf
  | ninf, _ => ninf
  | _, ninf => ninf
  | fin a, fin b => fin (a + b)

/-- IEEE-style subtraction. -/
def sub (x y : FP) : FP := add x (neg y)

/-- IEEE-style multiplication: NaN propagates, inf * 0 = NaN,
otherwise infinities keep the sign of the product. -/
def mul : FP → FP → FP
  | nan, _ => nan
  | _, nan => nan
  | inf, inf => inf
  | inf, ninf => ninf
  | ninf, inf => ninf
  | ninf, ninf => inf
  | inf, fin q => if q = 0 then nan else if 0 < q then inf else ninf
  | fin q, inf => if q = 0 then nan else if 0 < q then inf else ninf
  | ninf, fin q => if q = 0 then nan else if 0 < q then ninf else inf
  | fin q, ninf => if q = 0 then nan else if 0 < q then ninf else inf
  | fin a, fin b => fin (a * b)

/-- Division of a float by a positive natural count (used by `mean`);
division by zero (mean of an empty tensor) gives NaN. -/
def divNat : FP → ℕ → FP
  | _, 0 => nan
  | nan, _ => nan
  | inf, _ => inf
  | ninf, _ => ninf
  | fin q, n => fin (q / (n : ℚ))

end FP

/-- Sum of a list of float scalars (left-to-right IEEE addition from 0). -/
def fpSum (l : List FP) : FP := l.foldl FP.add (FP.fin 0)

/-- Model of `torch.mean` / `np.mean` over a 1-D tensor: sum divided by
length; the mean of an empty tensor is NaN. -/
def fpMean (l : List FP) : FP := FP.divNat (fpSum l) l.length

/-- Boolean-mask selection `pred[mask], label[mask]` where the mask is
computed from the label: keeps the (pred, label) pairs whose label
satisfies `keep`, in order. -/
def maskSelect (pred label : List FP) (keep : FP → Bool) : List (FP × FP) :=
  (pred.zip label).filter (fun pl => keep pl.2)

/-- Model of `GAT.mse`: `torch.mean((pred - label) ** 2)` over a list of
(pred, label) pairs. -/
def mse (pairs : List (FP × FP)) : FP :=
  fpMean (pairs.map (fun pl => FP.mul (FP.sub pl.1 pl.2) (FP.sub pl.1 pl.2)))

/-- Model of `GAT.loss_fn` in the default `loss="mse"` configuration:
`mask = ~torch.isnan(label)` and then `mse(pred[mask], label[mask])`.
(Any other loss name raises `ValueError` in the source and is not
reachable in the claims under study.) -/
def loss_fn (pred label : List FP) : FP :=
  mse (maskSelect pred label (fun l => ! l.isnan))

/-- Model of `GAT.cal_ic`: `torch.mean(pred * label)` (the simplified,
un-normalized "information coefficient"). -/
def cal_ic (pred label : List FP) : FP :=
  fpMean ((pred.zip label).map (fun pl => FP.mul pl.1 pl.2))

/-- Model of `GAT.metric_fn`: `mask = torch.isfinite(label)`; for
`metric="IC"` return `cal_ic(pred[mask], label[mask])`; for `metric=""`
or `"loss"` return `-loss_fn(pred[mask], label[mask])`; any other name
raises `ValueError`. -/
def metric_fn (metric : String) (pred label : List FP) : Except String FP :=
  let sel := maskSelect pred label FP.isfinite
  if metric = "IC" then
    Except.ok (cal_ic (sel.map Prod.fst) (sel.map Prod.snd))
  else if metric = "" ∨ metric = "loss" then
    Except.ok (FP.neg (loss_fn (sel.map Prod.fst) (sel.map Prod.snd)))
  else
    Except.error ("unknown metric " ++ metric)

/-- Accumulating cumulative sum: `cumsum_go acc [c1, c2, ...] =
[acc+c1, acc+c1+c2, ...]`. -/
def cumsum_go (acc : ℕ) : List ℕ → List ℕ
  | [] => []
  | c :: cs => (acc + c) :: cumsum_go (acc + c) cs

/-- Model of `np.cumsum` on a 1-D array of counts. -/
def np_cumsum (cs : List ℕ) : List ℕ := cumsum_go 0 cs

/-- Model of `np.roll(a, 1)`: rotate right by one (the last element moves
to the front); the empty array rolls to itself. -/
def np_roll1 (l : List ℕ) : List ℕ :=
  match l with
  | [] => []
  | a :: t => (a :: t).getLast (by simp) :: (a :: t).dropLast

/-- Model of the numpy assignment `a[0] = 0`, which raises `IndexError`
on an empty array. -/
def setIdx0 (l : List ℕ) : Except String (List ℕ) :=
  match l with
  | [] => Except.error "index 0 is out of bounds for axis 0 with size 0"
  | _ :: t => Except.ok (0 :: t)

/-- Insertion of a key into a sorted key list (ascending). -/
def insertSorted (a : ℕ) : List ℕ → List ℕ
  | [] => [a]
  | b :: t => if a ≤ b then a :: b :: t else b :: insertSorted a t

/-- Ascending insertion sort on keys (pandas sorts group keys; any
comparison sort computes the same ascending arrangement). -/
def sortKeys : List ℕ → List ℕ
  | [] => []
  | a :: t => insertSorted a (sortKeys t)

/-- Model of `df.groupby(level=0).size().values`: the number of rows per
distinct date, listed in ascending date order (pandas sorts group keys). -/
def groupSizes (dates : List ℕ) : List ℕ :=
  (sortKeys dates.dedup).map (fun k => dates.count k)

/-- Model of `GAT.get_daily_inter(df, shuffle=False)`, with the table
represented by its level-0 (date) index values in row order:
`daily_count = groupby sizes`, `daily_index = np.roll(np.cumsum(daily_count), 1)`
followed by `daily_index[0] = 0` (which raises `IndexError` on an empty
table).  The `shuffle=True` branch additionally permutes the zipped
(index, count) pairs with `np.random.shuffle`; callers that shuffle are
modelled by applying an arbitrary reordering to the returned pairs. -/
def get_daily_inter (dates : List ℕ) : Except String (List ℕ × List ℕ) := do
  let daily_count := groupSizes dates
  let daily_index ← setIdx0 (np_roll1 (np_cumsum daily_count))
  return (daily_index, daily_count)

/-- Exclusive prefix sums starting from `acc`: the closed form of the
`daily_index` offsets (`ex 0 [c1, c2, c3] = [0, c1, c1+c2]`). -/
def ex (acc : ℕ) : List ℕ → List ℕ
  | [] => []
  | c :: cs => acc :: ex (acc + c) cs

/-- Contiguous positional slice `xs[i : i + c]` of a row-ordered table. -/
def sliceTake (xs : List α) (i c : ℕ) : List α := (xs.drop i).take c

/-! ## The fit loop (`GAT.fit`): early stopping state machine -/

/-- State of the epoch loop in `GAT.fit`: `stop_steps`, `best_score`
(`none` models the initial `-np.inf`), `best_epoch`, the index `step` of
the next epoch to run, and whether the loop exited through the early-stop
`break`. -/
structure FitState where
  stop_steps : ℕ
  best_score : Option ℚ
  best_epoch : ℕ
  step : ℕ
  early_stopped : Bool
deriving DecidableEq, Repr

/-- Model of the comparison `val_score > best_score` with `best_score`
initialized to `-np.inf` (`none`): every finite score beats `-np.inf`,
afterwards the comparison is strict on rationals. -/
def improves (v : ℚ) (best : Option ℚ) : Bool :=
  match best with
  | none => true
  | some b => decide (b < v)

/-- Body of one iteration of the epoch loop in `GAT.fit`: on strict
improvement reset `stop_steps` to 0 and record `best_score`/`best_epoch`
(the parameter snapshot is taken at the same moment); otherwise increment
`stop_steps` and flag the `break` when `stop_steps >= early_stop`. -/
def fitEpoch (early_stop : ℕ) (v : ℚ) (s : FitState) : FitState :=
  if improves v s.best_score then
    { stop_steps := 0
      best_score := some v
      best_epoch := s.step
      step := s.step + 1
      early_stopped := false }
  else
    { s with
      stop_steps := s.stop_steps + 1
      step := s.step + 1
      early_stopped := decide (early_stop ≤ s.stop_steps + 1) }

/-- The epoch loop `for step in range(n_epochs)` with the early-stop
`break`: `scores` gives the validation score produced by each epoch. -/
def fitAux (early_stop : ℕ) (scores : ℕ → ℚ) : ℕ → FitState → FitState
  | 0, s => s
  | fuel + 1, s =>
    let s1 := fitEpoch early_stop (scores s.step) s
    if s1.early_stopped then s1 else fitAux early_stop scores fuel s1

/-- State just before the epoch loop of `GAT.fit`: `stop_steps = 0`,
`best_score = -np.inf`, `best_epoch = 0`. -/
def fitInit : FitState :=
  { stop_steps := 0
    best_score := none
    best_epoch := 0
    step := 0
    early_stopped := false }

/-- Model of the whole epoch loop of `GAT.fit` with `n_epochs` epochs. -/
def fitRun (early_stop n_epochs : ℕ) (scores : ℕ → ℚ) : FitState :=
  fitAux early_stop scores n_epochs fitInit

/-- Float-faithful state of the epoch loop in `GAT.fit`, for the parts of
the protocol where non-finite scores matter: `best_score` is a float
scalar initialized to the literal `-np.inf` (`FP.ninf`), and `best_param`
records the Python binding of the snapshot variable (`none` = unbound,
`some e` = deep-copied snapshot taken at epoch `e`). -/
structure FitStateF where
  stop_steps : ℕ
  best_score : FP
  best_epoch : ℕ
  best_param : Option ℕ
  step : ℕ
  early_stopped : Bool
deriving DecidableEq, Repr

/-- Float-faithful model of the comparison `val_score > best_score` at
`fit`:290: the IEEE greater-than, i.e. `best_score < val_score`, which is
false whenever `val_score` is NaN (as `np.mean` of the per-batch metric
values can be) or equals `best_score`'s current `-inf`. -/
def improvesF (v best : FP) : Bool := FP.flt best v

/-- Float-faithful body of one iteration of the epoch loop in `GAT.fit`
(same control flow as `fitEpoch`, with float scores and the `best_param`
binding made explicit). -/
def fitEpochF (early_stop : ℕ) (v : FP) (s : FitStateF) : FitStateF :=
  if improvesF v s.best_score then
    { stop_steps := 0
      best_score := v
      best_epoch := s.step
      best_param := some s.step
      step := s.step + 1
      early_stopped := false }
  else
    { s with
      stop_steps := s.stop_steps + 1
      step := s.step + 1
      early_stopped := decide (early_stop ≤ s.stop_steps + 1) }

/-- Float-faithful state just before the epoch loop of `GAT.fit`:
`stop_steps = 0`, `best_score = -np.inf`, `best_param` unbound. -/
def fitInitF : FitStateF :=
  { stop_steps := 0
    best_score := FP.ninf
    best_epoch := 0
    best_param := none
    step := 0
    early_stopped := false }

/-- Model of the statement `self.GAT_model.load_state_dict(best_param)`
after the epoch loop: `best_param` is only ever assigned inside the
improvement branch, so if no epoch took that branch the name is unbound
and Python raises `NameError`. -/
def fitFinalize (s : FitState) : Except String FitState :=
  match s.best_score with
  | none => Except.error "name best_param is not defined"
  | some _ => Except.ok s

/-- The part of the `GAT` object state relevant to the fitted-flag
protocol: `self._fitted`, set to `False` in `__init__`. -/
structure GATState where
  fitted : Bool
deriving DecidableEq, Repr

/-- Object state right after `GAT.__init__`: `self._fitted = False`. -/
def gatInit : GATState := { fitted := false }

/-- Model of `GAT.fit` at the flag level: `self._fitted = True` is
executed before the first iteration of the epoch loop, so the returned
object state carries `fitted = true` regardless of what the loop does. -/
def fitFlag (g : GATState) (early_stop n_epochs : ℕ) (scores : ℕ → ℚ) :
    GATState × FitState :=
  let g1 : GATState := { g with fitted := true }
  (g1, fitAux early_stop scores n_epochs fitInit)

/-- Model of the guard at the top of `GAT.predict`:
`if not self._fitted: raise ValueError("model is not fitted yet!")`. -/
def predictGuard (g : GATState) : Except String Unit :=
  if g.fitted then Except.ok () else Except.error "model is not fitted yet!"

/-! ## The training epoch (`GAT.train_epoch`) -/

/-- Model of `torch.nn.utils.clip_grad_value_(params, 3.0)` on one
gradient component: clamp into `[-3, 3]`. -/
def clip_grad_value (g : ℚ) : ℚ := min (max g (-3)) 3

/-- Model of `y * 100`, the fixed label scaling applied in
`GAT.train_epoch` before any loss is computed (NaN labels stay NaN). -/
def scale100 (l : FP) : FP := FP.mul l (FP.fin 100)

/-- Trace of one optimizer step of `GAT.train_epoch` on one daily batch:
the predictions, the (already scaled) labels, the masked loss, the raw
gradients produced by `loss.backward()`, the clipped gradients actually
consumed by `optimizer.step()`, and the parameters before/after the step. -/
structure TrainRec (P : Type) where
  pred : List FP
  labels : List FP
  loss : FP
  rawGrads : List ℚ
  grads : List ℚ
  thetaBefore : P
  thetaAfter : P
deriving DecidableEq, Repr

/-- One daily-batch step of `GAT.train_epoch`: forward pass, masked MSE
loss, `zero_grad`, `backward` (the gradient function `gradf` is the
external autodiff collaborator), elementwise clipping to `[-3, 3]`, then
one optimizer step (`opt`, the external optimizer collaborator). -/
def trainStep {Feat P : Type} (fwd : P → List Feat → List FP)
    (gradf : P → List Feat → List FP → List ℚ) (opt : P → List ℚ → P)
    (θ : P) (xs : List Feat) (ys : List FP) : TrainRec P × P :=
  let pred := fwd θ xs
  let l := loss_fn pred ys
  let raw := gradf θ xs ys
  let clipped := raw.map clip_grad_value
  let θ1 := opt θ clipped
  (⟨pred, ys, l, raw, clipped, θ, θ1⟩, θ1)

/-- The batch loop of `GAT.train_epoch` over the (offset, count) pairs,
threading the mutable model parameters through the optimizer steps. -/
def trainLoop {Feat P : Type} (fwd : P → List Feat → List FP)
    (gradf : P → List Feat → List FP → List ℚ) (opt : P → List ℚ → P)
    (xs : List Feat) (ys : List FP) :
    P → List (ℕ × ℕ) → List (TrainRec P)
  | _, [] => []
  | θ, p :: ps =>
    let r := trainStep fwd gradf opt θ (sliceTake xs p.1 p.2) (sliceTake ys p.1 p.2)
    r.1 :: trainLoop fwd gradf opt xs ys r.2 ps

/-- Model of `GAT.train_epoch`: scale the labels by 100, compute the
daily batches with `get_daily_inter(..., shuffle=True)` (the random
permutation of the zipped pairs is abstracted by `shuf`), then run one
forward/loss/backward/clip/step per daily batch in that order. -/
def train_epoch {Feat P : Type} (fwd : P → List Feat → List FP)
    (gradf : P → List Feat → List FP → List ℚ) (opt : P → List ℚ → P)
    (shuf : List (ℕ × ℕ) → List (ℕ × ℕ)) (θ0 : P)
    (x : List (ℕ × Feat)) (y : List FP) : Except String (List (TrainRec P)) :=
  let scaled := y.map scale100
  match get_daily_inter (x.map Prod.fst) with
  | Except.error e => Except.error e
  | Except.ok dic =>
    let pairs := shuf (dic.1.zip dic.2)
    Except.ok (trainLoop fwd gradf opt (x.map Prod.snd) scaled θ0 pairs)

/-! ## The evaluation epoch (`GAT.test_epoch`) -/

/-- Trace of one daily batch of `GAT.test_epoch`: predictions, labels,
the loss appended to `losses`, and the score appended to `scores`. -/
structure EvalRec where
  pred : List FP
  label : List FP
  loss : FP
  score : FP
deriving DecidableEq, Repr

/-- The batch loop of `GAT.test_epoch`: per daily batch, forward pass,
`loss_fn(pred, label)` appended to the losses, `metric_fn(pred, label)`
appended to the scores (an unknown metric raises on the first batch). -/
def testLoop {Feat : Type} (metric : String) (fwd : List Feat → List FP)
    (xs : List Feat) (ys : List FP) :
    List (ℕ × ℕ) → Except String (List EvalRec)
  | [] => Except.ok []
  | p :: ps =>
    let pred := fwd (sliceTake xs p.1 p.2)
    let lab := sliceTake ys p.1 p.2
    match metric_fn metric pred lab with
    | Except.error e => Except.error e
    | Except.ok s =>
      match testLoop metric fwd xs ys ps with
      | Except.error e => Except.error e
      | Except.ok rest => Except.ok (⟨pred, lab, loss_fn pred lab, s⟩ :: rest)

/-- Model of `GAT.test_epoch` exposing the per-batch records: the daily
batches come from `get_daily_inter(..., shuffle=False)`. -/
def test_epoch_records {Feat : Type} (metric : String)
    (fwd : List Feat → List FP) (x : List (ℕ × Feat)) (y : List FP) :
    Except String (List EvalRec) :=
  match get_daily_inter (x.map Prod.fst) with
  | Except.error e => Except.error e
  | Except.ok dic => testLoop metric fwd (x.map Prod.snd) y (dic.1.zip dic.2)

/-- Model of `GAT.test_epoch`'s return value
`(np.mean(losses), np.mean(scores))`: the unweighted arithmetic mean over
daily batches. -/
def test_epoch {Feat : Type} (metric : String) (fwd : List Feat → List FP)
    (x : List (ℕ × Feat)) (y : List FP) : Except String (FP × FP) :=
  match test_epoch_records metric fwd x y with
  | Except.error e => Except.error e
  | Except.ok recs =>
    Except.ok (fpMean (recs.map EvalRec.loss), fpMean (recs.map EvalRec.score))

/-! ## Cross-sample attention (`GATModel.cal_convariance` and the mixing
matrix product in `GATModel.forward`) -/

/-- Mean of a vector over its `hdim` components (`torch.mean(x, dim=1)`
applied to one row); in `ℚ`, the degenerate `hdim = 0` case yields 0. -/
def meanRow {hdim : ℕ} (v : Fin hdim → ℚ) : ℚ := (∑ k, v k) / (hdim : ℚ)

/-- Model of `GATModel.cal_convariance(x, y)` for `[N, H]` inputs:
entry (i, j) is `mean_h(x[i,h] * y[j,h]) - mean_h(x[i,:]) * mean_h(y[j,:])`
(`e_xy - e_x.mm(e_y.t())` in the source). -/
def cal_convariance {n hdim : ℕ} (x y : Fin n → Fin hdim → ℚ) :
    Fin n → Fin n → ℚ :=
  fun i j => meanRow (fun k => x i k * y j k) - meanRow (x i) * meanRow (y j)

/-- Model of `gamma.mm(hidden)` in `GATModel.forward`, with
`gamma = cal_convariance(hidden, hidden)`: each row becomes the
affinity-weighted combination of all rows of the same daily batch. -/
def attnOut {n hdim : ℕ} (hidden : Fin n → Fin hdim → ℚ) :
    Fin n → Fin hdim → ℚ :=
  fun i k => ∑ j, cal_convariance hidden hidden i j * hidden j k

/-! ## Prediction (`GAT.predict`) -/

/-- Model of one call `GAT_model(x_batch)` on a daily batch, as used by
`GAT.predict`: `GATModel.forward` applies `bn1` (a `BatchNorm1d` with
`track_running_stats=False`, which always normalizes with the current
batch statistics, in eval mode too) to the encoder output, and torch's
batch-norm size check raises `ValueError` on a batch with a single sample
— before the trailing `squeeze()` (whose 0-d output on a 1-row batch
would otherwise break `np.concatenate`).  On larger batches the
encoder/attention/head pipeline `f` produces one scalar per row. -/
def modelForward {Feat : Type} (f : List Feat → List ℚ) (batch : List Feat) :
    Except String (List ℚ) :=
  if batch.length = 1 then
    Except.error "Expected more than 1 value per channel when training, got input size 1"
  else
    Except.ok (f batch)

/-- The batch loop of `GAT.predict`: run the model on each contiguous
daily slice in order, collecting the per-batch prediction arrays and
propagating the first model error. -/
def predictBatches {Feat : Type} (f : List Feat → List ℚ) (xs : List Feat) :
    List (ℕ × ℕ) → Except String (List (List ℚ))
  | [] => Except.ok []
  | p :: ps =>
    match modelForward f (sliceTake xs p.1 p.2) with
    | Except.error e => Except.error e
    | Except.ok pr =>
      match predictBatches f xs ps with
      | Except.error e => Except.error e
      | Except.ok rest => Except.ok (pr :: rest)

/-- Model of `GAT.predict` after the fitted-flag guard, over a table of
(index key, feature) rows whose trading date is given by `d`: compute the
unshuffled daily batches, run the model on each contiguous slice (failing
on a single-row batch, see `modelForward`), concatenate the per-batch
predictions (`np.concatenate`) and pair them with the original row index
(`pd.Series(values, index=index)`, which raises if the lengths disagree). -/
def predict {ι Feat : Type} (d : ι → ℕ) (f : List Feat → List ℚ)
    (rows : List (ι × Feat)) : Except String (List (ι × ℚ)) :=
  match get_daily_inter (rows.map (fun r => d r.1)) with
  | Except.error e => Except.error e
  | Except.ok dic =>
    let xs := rows.map Prod.snd
    match predictBatches f xs (dic.1.zip dic.2) with
    | Except.error e => Except.error e
    | Except.ok preds =>
      let flat := preds.flatten
      if flat.length = rows.length then
        Except.ok ((rows.map Prod.fst).zip flat)
      else
        Except.error "Length of values does not match length of index"

/-- Validation-score sequence of the spec's worked early-stopping example:
[0.1, 0.05, 0.05, 0.2, 0.05, 0.05, 0.05] (0 past the end, never reached). -/
def exampleScores : ℕ → ℚ :=
  fun i => [(1 : ℚ)/10, 1/20, 1/20, 1/5, 1/20, 1/20, 1/20].getD i 0

/-- Concrete [1, 2] hidden matrix (one sample, two hidden features 0 and 1). -/
def oneSampleHidden : Fin 1 → Fin 2 → ℚ := fun _ k => if k = 0 then 0 else 1

/-- Concrete [1, 2] hidden matrix with both components equal to 5. -/
def oneSampleConst : Fin 1 → Fin 2 → ℚ := fun _ _ => 5

/-! ## Helper lemmas -/

theorem cumsum_go_dropLast (cs : List ℕ) :
    ∀ acc, (acc :: cumsum_go acc cs).dropLast = ex acc cs := by
  induction cs with
  | nil => intro acc; rfl
  | cons c cs ih =>
    intro acc
    show (acc :: (acc + c) :: cumsum_go (acc + c) cs).dropLast = acc :: ex (acc + c) cs
    rw [List.dropLast_cons₂, ih (acc + c)]

theorem insertSorted_perm (a : ℕ) (l : List ℕ) :
    List.Perm (insertSorted a l) (a :: l) := by
  induction l with
  | nil => exact List.Perm.refl _
  | cons b t ih =>
    rw [insertSorted]
    by_cases hab : a ≤ b
    · rw [if_pos hab]
    · rw [if_neg hab]
      exact (ih.cons b).trans (List.Perm.swap a b t)

theorem sortKeys_perm (l : List ℕ) : List.Perm (sortKeys l) l := by
  induction l with
  | nil => exact List.Perm.refl _
  | cons a t ih =>
    rw [sortKeys]
    exact (insertSorted_perm a (sortKeys t)).trans (ih.cons a)

theorem groupSizes_length (dates : List ℕ) :
    (groupSizes dates).length = dates.dedup.length := by
  simp [groupSizes, (sortKeys_perm dates.dedup).length_eq]

theorem groupSizes_ne_nil {dates : List ℕ} (h : dates ≠ []) :
    groupSizes dates ≠ [] := by
  intro hnil
  have : (groupSizes dates).length = 0 := by rw [hnil]; rfl
  rw [groupSizes_length] at this
  exact h ((List.dedup_eq_nil dates).mp (List.length_eq_zero.mp this))

theorem groupSizes_sum (dates : List ℕ) :
    (groupSizes dates).sum = dates.length := by
  have hperm : List.Perm (groupSizes dates) (dates.dedup.map (fun k => dates.count k)) :=
    (sortKeys_perm dates.dedup).map _
  rw [hperm.sum_eq]
  have h1 : (dates.dedup.map (fun k => dates.count k)).sum
      = dates.dedup.toFinset.sum (fun k => dates.count k) :=
    (List.sum_toFinset _ dates.nodup_dedup).symm
  have h2 : dates.dedup.toFinset = dates.toFinset := by
    ext a; simp [List.mem_dedup]
  rw [h1, h2]
  exact List.sum_toFinset_count_eq_length dates

theorem groupSizes_pos (dates : List ℕ) :
    ∀ c ∈ groupSizes dates, 0 < c := by
  intro c hc
  obtain ⟨k, hk, rfl⟩ := List.mem_map.mp hc
  have hk2 : k ∈ dates.dedup := (sortKeys_perm dates.dedup).mem_iff.mp hk
  exact List.count_pos_iff.mpr (List.mem_dedup.mp hk2)

theorem groupSizes_ne_one {dates : List ℕ}
    (h : ∀ k ∈ dates, dates.count k ≠ 1) :
    ∀ c ∈ groupSizes dates, c ≠ 1 := by
  intro c hc
  obtain ⟨k, hk, rfl⟩ := List.mem_map.mp hc
  have hk2 : k ∈ dates.dedup := (sortKeys_perm dates.dedup).mem_iff.mp hk
  exact h k (List.mem_dedup.mp hk2)

theorem get_daily_inter_eq_ex {dates : List ℕ} (h : dates ≠ []) :
    get_daily_inter dates = Except.ok (ex 0 (groupSizes dates), groupSizes dates) := by
  obtain ⟨c, cs, hcs⟩ := List.exists_cons_of_ne_nil (groupSizes_ne_nil h)
  have hroll : np_roll1 (np_cumsum (c :: cs))
      = ((0 + c) :: cumsum_go (0 + c) cs).getLast (by simp)
        :: ((0 + c) :: cumsum_go (0 + c) cs).dropLast := by
    simp [np_cumsum, cumsum_go, np_roll1]
  simp only [get_daily_inter, hcs, hroll, cumsum_go_dropLast cs (0 + c), setIdx0]
  show Except.ok (0 :: ex (0 + c) cs, c :: cs) = _
  simp [ex]

theorem ex_length (cs : List ℕ) : ∀ acc, (ex acc cs).length = cs.length := by
  induction cs with
  | nil => intro acc; rfl
  | cons c cs ih => intro acc; simp [ex, ih (acc + c)]

theorem ex_getD_succ (cs : List ℕ) :
    ∀ acc i, i + 1 < cs.length →
      (ex acc cs).getD (i + 1) 0 = (ex acc cs).getD i 0 + cs.getD i 0 := by
  induction cs with
  | nil => intro acc i h; simp at h
  | cons c cs ih =>
    intro acc i h
    match i with
    | 0 =>
      cases cs with
      | nil => simp at h
      | cons c2 cs2 => simp [ex]
    | i + 1 =>
      have hlt : i + 1 < cs.length := by simpa using h
      simp only [ex, List.getD_cons_succ]
      exact ih (acc + c) i hlt

theorem ex_chain {cs : List ℕ} (hpos : ∀ c ∈ cs, 0 < c) :
    ∀ acc, List.Chain' (· < ·) (ex acc cs) := by
  induction cs with
  | nil => intro acc; simp [ex]
  | cons c cs ih =>
    intro acc
    have htail : List.Chain' (· < ·) (ex (acc + c) cs) :=
      ih (fun d hd => hpos d (List.mem_cons_of_mem c hd)) (acc + c)
    rw [ex, List.chain'_cons']
    refine ⟨?_, htail⟩
    intro y hy
    have hc : 0 < c := hpos c (by simp)
    cases cs with
    | nil => simp [ex] at hy
    | cons c2 cs2 =>
      simp [ex] at hy
      omega

theorem fitAux_step2 (es : ℕ) (scores : ℕ → ℚ) (fuel : ℕ) (s s1 : FitState)
    (h : fitEpoch es (scores s.step) s = s1) (hns : s1.early_stopped = false) :
    fitAux es scores (fuel + 1) s = fitAux es scores fuel s1 := by
  rw [fitAux]
  simp [h, hns]

theorem fitAux_break (es : ℕ) (scores : ℕ → ℚ) (fuel : ℕ) (s : FitState)
    (h : (fitEpoch es (scores s.step) s).early_stopped = true) :
    fitAux es scores (fuel + 1) s = fitEpoch es (scores s.step) s := by
  rw [fitAux]
  simp [h]

theorem clip_grad_value_bounds (g : ℚ) :
    -3 ≤ clip_grad_value g ∧ clip_grad_value g ≤ 3 := by
  unfold clip_grad_value
  constructor
  · exact le_min (le_trans (by norm_num) (le_max_right g (-3))) (by norm_num)
  · exact min_le_right _ _

theorem trainLoop_spec {Feat P : Type} (fwd : P → List Feat → List FP)
    (gradf : P → List Feat → List FP → List ℚ) (opt : P → List ℚ → P)
    (xs : List Feat) (ys : List FP) :
    ∀ (ps : List (ℕ × ℕ)) (θ : P) (r : TrainRec P),
      r ∈ trainLoop fwd gradf opt xs ys θ ps →
      (∃ i c, r.pred = fwd r.thetaBefore (sliceTake xs i c)
        ∧ r.labels = sliceTake ys i c)
      ∧ r.loss = mse (maskSelect r.pred r.labels (fun l => ! l.isnan))
      ∧ r.grads = r.rawGrads.map clip_grad_value
      ∧ (∀ g ∈ r.grads, -3 ≤ g ∧ g ≤ 3)
      ∧ r.thetaAfter = opt r.thetaBefore r.grads := by
  intro ps
  induction ps with
  | nil => intro θ r hr; simp [trainLoop] at hr
  | cons p ps ih =>
    intro θ r hr
    rw [trainLoop] at hr
    rcases List.mem_cons.mp hr with hhead | htail
    · subst hhead
      refine ⟨⟨p.1, p.2, rfl, rfl⟩, rfl, rfl, ?_, rfl⟩
      intro g hg
      simp only [trainStep, List.mem_map] at hg
      obtain ⟨g0, _, rfl⟩ := hg
      exact clip_grad_value_bounds g0
    · exact ih _ r htail

theorem testLoop_spec {Feat : Type} (metric : String) (fwd : List Feat → List FP)
    (xs : List Feat) (ys : List FP) :
    ∀ (ps : List (ℕ × ℕ)) (recs : List EvalRec),
      testLoop metric fwd xs ys ps = Except.ok recs →
      ∀ r ∈ recs,
        r.loss = mse (maskSelect r.pred r.label (fun l => ! l.isnan))
        ∧ (metric = "IC" →
            r.score = cal_ic ((maskSelect r.pred r.label FP.isfinite).map Prod.fst)
              ((maskSelect r.pred r.label FP.isfinite).map Prod.snd)) := by
  intro ps
  induction ps with
  | nil =>
    intro recs hrecs r hr
    simp only [testLoop, Except.ok.injEq] at hrecs
    subst hrecs
    simp at hr
  | cons p ps ih =>
    intro recs hrecs r hr
    rw [testLoop] at hrecs
    rcases hmf : metric_fn metric (fwd (sliceTake xs p.1 p.2)) (sliceTake ys p.1 p.2)
      with e | s
    · rw [hmf] at hrecs; simp at hrecs
    rcases hrest : testLoop metric fwd xs ys ps with e2 | rest
    · rw [hmf, hrest] at hrecs; simp at hrecs
    rw [hmf, hrest] at hrecs
    simp only [Except.ok.injEq] at hrecs
    subst hrecs
    rcases List.mem_cons.mp hr with hhead | htail
    · subst hhead
      constructor
      · rfl
      · intro hic
        simp only [metric_fn, hic, if_pos rfl] at hmf
        exact ((Except.ok.injEq _ _).mp hmf).symm
    · exact ih rest hrest r htail

theorem slice_len_flatten {α β : Type} (f : List α → List β)
    (hf : ∀ b, (f b).length = b.length) (xs : List α) :
    ∀ (cs : List ℕ) (acc : ℕ), acc + cs.sum ≤ xs.length →
      ((((ex acc cs).zip cs).map (fun p => f (sliceTake xs p.1 p.2))).flatten).length
        = cs.sum := by
  intro cs
  induction cs with
  | nil => intro acc h; simp [ex]
  | cons c cs ih =>
    intro acc h
    have hslice : (sliceTake xs acc c).length = c := by
      simp only [sliceTake, List.length_take, List.length_drop]
      have : acc + c ≤ xs.length := by
        have := h
        simp only [List.sum_cons] at this
        omega
      omega
    have hbound : (acc + c) + cs.sum ≤ xs.length := by
      simp only [List.sum_cons] at h
      omega
    simp only [ex, List.zip_cons_cons, List.map_cons, List.flatten_cons,
      List.length_append, hf, hslice, ih (acc + c) hbound, List.sum_cons]

theorem predictBatches_ok {Feat : Type} (f : List Feat → List ℚ)
    (xs : List Feat) :
    ∀ (cs : List ℕ) (acc : ℕ), acc + cs.sum ≤ xs.length → (∀ c ∈ cs, c ≠ 1) →
      predictBatches f xs ((ex acc cs).zip cs)
        = Except.ok (((ex acc cs).zip cs).map (fun p => f (sliceTake xs p.1 p.2))) := by
  intro cs
  induction cs with
  | nil => intro acc hb hc; rfl
  | cons c cs ih =>
    intro acc hb hc
    have hslice : (sliceTake xs acc c).length = c := by
      simp only [sliceTake, List.length_take, List.length_drop]
      have : acc + c ≤ xs.length := by
        simp only [List.sum_cons] at hb
        omega
      omega
    have hbound : (acc + c) + cs.sum ≤ xs.length := by
      simp only [List.sum_cons] at hb
      omega
    have hrest := ih (acc + c) hbound (fun c2 hc2 => hc c2 (List.mem_cons_of_mem c hc2))
    simp only [List.zip] at hrest
    simp only [ex, List.zip, List.zipWith_cons_cons, predictBatches, modelForward, hslice,
      hc c (List.mem_cons_self c cs), if_false, hrest, List.map_cons]

/-! ## Claim theorems -/

/-- C1: the fit loop updates best_score/best_epoch (and takes the
best-parameter snapshot) only on strict improvement — a tie never counts
as an improvement — while ties and decreases increment stop_steps, and the
epoch loop exits as soon as stop_steps reaches the early_stop threshold;
on the validation scores [0.1, 0.05, 0.05, 0.2, 0.05, 0.05, 0.05] with
early_stop = 3 and any epoch budget of at least 7 (so in particular the
source default n_epochs = 200) this gives best_epoch = 3 and training
halts right after epoch 6 (7 epochs executed, early-stopped). -/
theorem fit_early_stop :
    (∀ v : ℚ, improves v (some v) = false)
    ∧ (∀ es (v : ℚ) s, improves v s.best_score = true →
        fitEpoch es v s =
          { stop_steps := 0
            best_score := some v
            best_epoch := s.step
            step := s.step + 1
            early_stopped := false })
    ∧ (∀ es (v : ℚ) s, improves v s.best_score = false →
        fitEpoch es v s =
          { s with
            stop_steps := s.stop_steps + 1
            step := s.step + 1
            early_stopped := decide (es ≤ s.stop_steps + 1) })
    ∧ (∀ es scores fuel s, (fitEpoch es (scores s.step) s).early_stopped = true →
        fitAux es scores (fuel + 1) s = fitEpoch es (scores s.step) s)
    ∧ (∀ fuel, fitRun 3 (fuel + 7) exampleScores
        = { stop_steps := 3
            best_score := some (1/5)
            best_epoch := 3
            step := 7
            early_stopped := true }) := by
  refine ⟨?_, ?_, ?_, fitAux_break, ?_⟩
  · intro v; simp [improves]
  · intro es v s h; simp [fitEpoch, h]
  · intro es v s h; simp [fitEpoch, h]
  · intro fuel
    have e1 : fitEpoch 3 (exampleScores 0) fitInit = ⟨0, some (1/10), 0, 1, false⟩ := by
      norm_num [fitEpoch, improves, exampleScores, fitInit]
    have e2 : fitEpoch 3 (exampleScores 1) ⟨0, some (1/10), 0, 1, false⟩
        = ⟨1, some (1/10), 0, 2, false⟩ := by
      norm_num [fitEpoch, improves, exampleScores]
    have e3 : fitEpoch 3 (exampleScores 2) ⟨1, some (1/10), 0, 2, false⟩
        = ⟨2, some (1/10), 0, 3, false⟩ := by
      norm_num [fitEpoch, improves, exampleScores]
    have e4 : fitEpoch 3 (exampleScores 3) ⟨2, some (1/10), 0, 3, false⟩
        = ⟨0, some (1/5), 3, 4, false⟩ := by
      norm_num [fitEpoch, improves, exampleScores]
    have e5 : fitEpoch 3 (exampleScores 4) ⟨0, some (1/5), 3, 4, false⟩
        = ⟨1, some (1/5), 3, 5, false⟩ := by
      norm_num [fitEpoch, improves, exampleScores]
    have e6 : fitEpoch 3 (exampleScores 5) ⟨1, some (1/5), 3, 5, false⟩
        = ⟨2, some (1/5), 3, 6, false⟩ := by
      norm_num [fitEpoch, improves, exampleScores]
    have e7 : fitEpoch 3 (exampleScores 6) ⟨2, some (1/5), 3, 6, false⟩
        = ⟨3, some (1/5), 3, 7, true⟩ := by
      norm_num [fitEpoch, improves, exampleScores]
    calc fitRun 3 (fuel + 7) exampleScores
        = fitAux 3 exampleScores (fuel + 6) ⟨0, some (1/10), 0, 1, false⟩ :=
          fitAux_step2 3 exampleScores (fuel + 6) fitInit _ e1 rfl
      _ = fitAux 3 exampleScores (fuel + 5) ⟨1, some (1/10), 0, 2, false⟩ :=
          fitAux_step2 3 exampleScores (fuel + 5) _ _ e2 rfl
      _ = fitAux 3 exampleScores (fuel + 4) ⟨2, some (1/10), 0, 3, false⟩ :=
          fitAux_step2 3 exampleScores (fuel + 4) _ _ e3 rfl
      _ = fitAux 3 exampleScores (fuel + 3) ⟨0, some (1/5), 3, 4, false⟩ :=
          fitAux_step2 3 exampleScores (fuel + 3) _ _ e4 rfl
      _ = fitAux 3 exampleScores (fuel + 2) ⟨1, some (1/5), 3, 5, false⟩ :=
          fitAux_step2 3 exampleScores (fuel + 2) _ _ e5 rfl
      _ = fitAux 3 exampleScores (fuel + 1) ⟨2, some (1/5), 3, 6, false⟩ :=
          fitAux_step2 3 exampleScores (fuel + 1) _ _ e6 rfl
      _ = fitEpoch 3 (exampleScores 6) ⟨2, some (1/5), 3, 6, false⟩ :=
          fitAux_break 3 exampleScores fuel _ (by rw [e7])
      _ = ⟨3, some (1/5), 3, 7, true⟩ := e7

/-- C1 witness: the general parts of `fit_early_stop` instantiated at
concrete states (an improvement step from the initial state, a
non-improvement step, and an immediate loop exit on the early-stop flag). -/
theorem fit_early_stop_witness :
    improves (1 : ℚ) (some 1) = false
    ∧ fitEpoch 3 (1 : ℚ) fitInit =
        { stop_steps := 0
          best_score := some 1
          best_epoch := 0
          step := 1
          early_stopped := false }
    ∧ fitEpoch 3 (0 : ℚ)
        { stop_steps := 0
          best_score := some 1
          best_epoch := 0
          step := 1
          early_stopped := false } =
        { stop_steps := 1
          best_score := some 1
          best_epoch := 0
          step := 2
          early_stopped := false }
    ∧ fitAux 3 (fun _ => (0 : ℚ)) 1
        { stop_steps := 2
          best_score := some 1
          best_epoch := 0
          step := 5
          early_stopped := false } =
      fitEpoch 3 ((fun _ => (0 : ℚ))
        ({ stop_steps := 2
           best_score := some 1
           best_epoch := 0
           step := 5
           early_stopped := false } : FitState).step)
        { stop_steps := 2
          best_score := some 1
          best_epoch := 0
          step := 5
          early_stopped := false } :=
  ⟨fit_early_stop.1 1,
   fit_early_stop.2.1 3 1 fitInit (by decide),
   fit_early_stop.2.2.1 3 0 _ (by decide),
   fit_early_stop.2.2.2.1 3 (fun _ => (0 : ℚ)) 0 _ (by decide)⟩

/-- C3 counterexample: on an empty table `get_daily_inter` does not
return the empty sequence of (offset, count) pairs — the numpy assignment
`daily_index[0] = 0` raises `IndexError` on the empty offsets array. -/
theorem empty_table_counterexample :
    ¬ (get_daily_inter ([] : List ℕ) = Except.ok ([], [])) := by
  intro h
  rw [show get_daily_inter ([] : List ℕ)
    = Except.error "index 0 is out of bounds for axis 0 with size 0" from rfl] at h
  exact Except.noConfusion h

/-- C3 amended: on an empty table `get_daily_inter` raises `IndexError`
(from `daily_index[0] = 0` on an empty array) instead of returning an
empty sequence of batches. -/
theorem empty_table_raises :
    get_daily_inter ([] : List ℕ)
      = Except.error "index 0 is out of bounds for axis 0 with size 0" := rfl

/-- C5: each entry (i, j) of the affinity matrix
`cal_convariance(hidden, hidden)` equals
`mean_h(hidden[i,h]*hidden[j,h]) - mean_h(hidden[i,:])*mean_h(hidden[j,:])`,
and the matrix is symmetric. -/
theorem affinity_formula_symm (n hdim : ℕ) (x : Fin n → Fin hdim → ℚ)
    (i j : Fin n) :
    cal_convariance x x i j
      = meanRow (fun k => x i k * x j k) - meanRow (x i) * meanRow (x j)
    ∧ cal_convariance x x i j = cal_convariance x x j i := by
  constructor
  · rfl
  · have h1 : (∑ k, x i k * x j k) = ∑ k, x j k * x i k :=
      Finset.sum_congr rfl (fun k _ => mul_comm _ _)
    simp only [cal_convariance, meanRow, h1]
    ring

/-- C6 counterexample: for the single-sample (N = 1) hidden matrix
[[0, 1]] the affinity entry is 1/4 (the variance of the hidden components
over the H dimension), not 0, and the re-weighted output
`gamma.mm(hidden)` is [[0, 1/4]], not the zero vector. -/
theorem attn_single_sample_counterexample :
    cal_convariance oneSampleHidden oneSampleHidden 0 0 ≠ 0
    ∧ attnOut oneSampleHidden 0 1 ≠ 0 := by
  constructor
  · norm_num [cal_convariance, meanRow, oneSampleHidden, Fin.sum_univ_two]
  · norm_num [attnOut, cal_convariance, meanRow, oneSampleHidden,
      Fin.sum_univ_two, Fin.sum_univ_one]

/-- C6 amended: for a daily batch of size N = 1, the 1x1 affinity entry
equals the variance of the hidden vector across its H components
(mean of squares minus squared mean), the re-weighted output is that
scalar times the hidden vector (both computed without any division by
zero: the only divisions are the fixed means over H), and the affinity
and output are zero exactly in the degenerate case of a constant hidden
vector (for example the all-zero vector). -/
theorem attn_single_sample (hdim : ℕ) (v : Fin 1 → Fin hdim → ℚ) :
    cal_convariance v v 0 0
      = meanRow (fun k => v 0 k * v 0 k) - meanRow (v 0) * meanRow (v 0)
    ∧ (∀ k, attnOut v 0 k = cal_convariance v v 0 0 * v 0 k)
    ∧ ((∀ k1 k2, v 0 k1 = v 0 k2) →
        cal_convariance v v 0 0 = 0 ∧ ∀ k, attnOut v 0 k = 0) := by
  have hmm : ∀ k, attnOut v 0 k = cal_convariance v v 0 0 * v 0 k := by
    intro k
    simp [attnOut, Fin.sum_univ_one]
  refine ⟨rfl, hmm, ?_⟩
  intro hconst
  rcases Nat.eq_zero_or_pos hdim with hz | hpos
  · subst hz
    have hcov : cal_convariance v v 0 0 = 0 := by
      simp [cal_convariance, meanRow]
    exact ⟨hcov, fun k => by rw [hmm k, hcov, zero_mul]⟩
  · set c := v 0 ⟨0, hpos⟩ with hc
    have hk : ∀ k, v 0 k = c := fun k => hconst k ⟨0, hpos⟩
    have hsum1 : (∑ k, v 0 k) = (hdim : ℚ) * c := by
      rw [Finset.sum_congr rfl (fun k _ => hk k), Finset.sum_const,
        Finset.card_univ, Fintype.card_fin, nsmul_eq_mul]
    have hsum2 : (∑ k : Fin hdim, v 0 k * v 0 k) = (hdim : ℚ) * (c * c) := by
      rw [Finset.sum_congr rfl (fun k _ => by rw [hk k]), Finset.sum_const,
        Finset.card_univ, Fintype.card_fin, nsmul_eq_mul]
    have hd : (hdim : ℚ) ≠ 0 := Nat.cast_ne_zero.mpr (Nat.pos_iff_ne_zero.mp hpos)
    have hcov : cal_convariance v v 0 0 = 0 := by
      simp only [cal_convariance, meanRow, hsum1, hsum2]
      field_simp
    exact ⟨hcov, fun k => by rw [hmm k, hcov, zero_mul]⟩

/-- C6 amended witness: on the constant hidden matrix [[5, 5]] the
single-sample affinity and the re-weighted output are both zero. -/
theorem attn_single_sample_witness :
    cal_convariance oneSampleConst oneSampleConst 0 0 = 0
    ∧ attnOut oneSampleConst 0 0 = 0 := by
  have h := (attn_single_sample 2 oneSampleConst).2.2 (fun k1 k2 => rfl)
  exact ⟨h.1, h.2 0⟩

/-- C9 counterexample: the first epoch does not take the improvement
branch for every possible validation score: for a NaN first-epoch score
(as `np.mean` of the metric values yields when, e.g., a batch has no
finite labels), `nan > -inf` is false, so epoch 0 runs the
non-improvement branch — stop_steps becomes 1 and no best-parameter
snapshot is recorded (`best_param` stays unbound). -/
theorem first_epoch_nan_counterexample :
    improvesF FP.nan fitInitF.best_score = false
    ∧ fitEpochF 3 FP.nan fitInitF =
        { stop_steps := 1
          best_score := FP.ninf
          best_epoch := 0
          best_param := none
          step := 1
          early_stopped := false } :=
  ⟨rfl, rfl⟩

/-- C9 amended: because best_score is initialized to -infinity, epoch 0
takes the improvement branch — setting best_epoch = 0 and recording the
best-parameter snapshot — for every possible first-epoch validation
score that is neither NaN nor -infinity itself (so for every finite
score, and for +infinity); a NaN score (reachable when the metric mean
degenerates) or a -infinity score instead runs the non-improvement
branch, since the IEEE comparison with -inf is false there. -/
theorem first_epoch_improves_unless_nan (es : ℕ) (v : FP)
    (hnan : v ≠ FP.nan) (hninf : v ≠ FP.ninf) :
    improvesF v fitInitF.best_score = true
    ∧ fitEpochF es v fitInitF =
        { stop_steps := 0
          best_score := v
          best_epoch := 0
          best_param := some 0
          step := 1
          early_stopped := false } := by
  cases v with
  | nan => exact absurd rfl hnan
  | ninf => exact absurd rfl hninf
  | inf => exact ⟨rfl, rfl⟩
  | fin q => exact ⟨rfl, rfl⟩

/-- C9 amended witness: `first_epoch_improves_unless_nan` at the finite
first-epoch score 0. -/
theorem first_epoch_improves_unless_nan_witness :
    improvesF (FP.fin 0) fitInitF.best_score = true
    ∧ fitEpochF 20 (FP.fin 0) fitInitF =
        { stop_steps := 0
          best_score := FP.fin 0
          best_epoch := 0
          best_param := some 0
          step := 1
          early_stopped := false } :=
  first_epoch_improves_unless_nan 20 (FP.fin 0) (by decide) (by decide)

/-- C10: `self._fitted = True` is executed before the epoch loop, so even
with n_epochs = 0 (the loop body never runs and the returned loop state is
the initial one) the flag is set, a later `predict` passes the not-fitted
guard, and this holds even though fit itself subsequently fails at
`load_state_dict(best_param)` (NameError: no epoch ever assigned
best_param); before any fit, the guard does raise. -/
theorem fitted_flag_before_loop (g : GATState) (es : ℕ) (scores : ℕ → ℚ) :
    (fitFlag g es 0 scores).1.fitted = true
    ∧ (fitFlag g es 0 scores).2 = fitInit
    ∧ predictGuard (fitFlag g es 0 scores).1 = Except.ok ()
    ∧ fitFinalize (fitFlag g es 0 scores).2
        = Except.error "name best_param is not defined"
    ∧ predictGuard gatInit = Except.error "model is not fitted yet!" :=
  ⟨rfl, rfl, rfl, rfl, rfl⟩

/-- C2: on a non-empty date-sorted table, `get_daily_inter` (unshuffled)
returns one (offset, count) pair per distinct date; the counts sum to the
row count, the offsets start at 0, each offset is the previous offset
plus the previous count (no gaps or overlap), and the offsets are
strictly increasing. -/
theorem daily_batcher_partition (dates : List ℕ) (hne : dates ≠ [])
    (_hsorted : List.Sorted (· ≤ ·) dates) :
    ∃ idx cnt, get_daily_inter dates = Except.ok (idx, cnt)
      ∧ idx.length = dates.dedup.length
      ∧ cnt.length = dates.dedup.length
      ∧ cnt.sum = dates.length
      ∧ idx.getD 0 0 = 0
      ∧ (∀ i, i + 1 < idx.length →
          idx.getD (i + 1) 0 = idx.getD i 0 + cnt.getD i 0)
      ∧ List.Chain' (· < ·) idx := by
  refine ⟨ex 0 (groupSizes dates), groupSizes dates, get_daily_inter_eq_ex hne,
    ?_, groupSizes_length dates, groupSizes_sum dates, ?_, ?_,
    ex_chain (groupSizes_pos dates) 0⟩
  · rw [ex_length, groupSizes_length]
  · obtain ⟨c, cs, hcs⟩ := List.exists_cons_of_ne_nil (groupSizes_ne_nil hne)
    rw [hcs]
    rfl
  · intro i h
    rw [ex_length] at h
    exact ex_getD_succ _ 0 i h

/-- C2 witness: the partition property instantiated on the date-sorted
table with dates [0, 0, 1]. -/
theorem daily_batcher_partition_witness :
    ∃ idx cnt, get_daily_inter [0, 0, 1] = Except.ok (idx, cnt)
      ∧ idx.length = [0, 0, 1].dedup.length
      ∧ cnt.length = [0, 0, 1].dedup.length
      ∧ cnt.sum = [0, 0, 1].length
      ∧ idx.getD 0 0 = 0
      ∧ (∀ i, i + 1 < idx.length →
          idx.getD (i + 1) 0 = idx.getD i 0 + cnt.getD i 0)
      ∧ List.Chain' (· < ·) idx :=
  daily_batcher_partition [0, 0, 1] (by simp)
    (by norm_num [List.sorted_cons])

/-- C4 counterexample: in `test_epoch`, the per-batch loss appended to
`losses` comes from `loss_fn`, whose mask keeps non-NaN labels only: on a
batch whose single label is +infinity, the recorded loss is infinity
(the infinite label was kept), whereas a loss over the finite-label mask
would be NaN (the mean over an empty selection); so the evaluation loss
is not computed over the finite mask. -/
theorem eval_loss_mask_counterexample :
    test_epoch_records "IC" (fun _ : List ℕ => [FP.fin 0])
        [((0 : ℕ), (0 : ℕ))] [FP.inf]
      = Except.ok [⟨[FP.fin 0], [FP.inf], FP.inf, FP.nan⟩]
    ∧ mse (maskSelect [FP.fin 0] [FP.inf] FP.isfinite) = FP.nan
    ∧ FP.inf ≠ FP.nan :=
  ⟨rfl, rfl, by decide⟩

/-- C4 amended: in `test_epoch` the per-batch loss uses the same NaN-only
mask as training (`loss_fn`; labels equal to ± infinity are kept), while
the strictly stricter finite mask is applied only inside `metric_fn` when
the per-batch score is computed (shown here for the default metric "IC");
every finite value passes the NaN-only mask but ± infinity passes the
NaN-only mask and fails the finite one. -/
theorem eval_mask_semantics {Feat : Type} (metric : String)
    (fwd : List Feat → List FP) (x : List (ℕ × Feat)) (y : List FP)
    (recs : List EvalRec)
    (h : test_epoch_records metric fwd x y = Except.ok recs) :
    (∀ r ∈ recs,
      r.loss = mse (maskSelect r.pred r.label (fun l => ! l.isnan))
      ∧ (metric = "IC" →
          r.score = cal_ic ((maskSelect r.pred r.label FP.isfinite).map Prod.fst)
            ((maskSelect r.pred r.label FP.isfinite).map Prod.snd)))
    ∧ (∀ l : FP, l.isfinite = true → (! l.isnan) = true)
    ∧ ((! FP.inf.isnan) = true ∧ FP.inf.isfinite = false) := by
  refine ⟨?_, ?_, by decide⟩
  · intro r hr
    rw [test_epoch_records] at h
    rcases hgd : get_daily_inter (x.map Prod.fst) with e | dic
    · rw [hgd] at h
      exact absurd h (by simp)
    · rw [hgd] at h
      exact testLoop_spec metric fwd (x.map Prod.snd) y _ recs h r hr
  · intro l hl
    cases l <;> simp_all [FP.isfinite, FP.isnan]

/-- C4 amended witness: the score mask of `eval_mask_semantics`
instantiated on a one-batch table whose single label is NaN. -/
theorem eval_mask_semantics_witness :
    FP.nan = cal_ic ((maskSelect [FP.fin 0] [FP.nan] FP.isfinite).map Prod.fst)
      ((maskSelect [FP.fin 0] [FP.nan] FP.isfinite).map Prod.snd)
    ∧ (! FP.inf.isnan) = true := by
  have h := eval_mask_semantics "IC" (fun _ : List ℕ => [FP.fin 0])
    [((0 : ℕ), (0 : ℕ))] [FP.nan] [⟨[FP.fin 0], [FP.nan], FP.nan, FP.nan⟩] rfl
  exact ⟨(h.1 _ (List.mem_singleton.mpr rfl)).2 rfl, h.2.2.1⟩

/-- C7: in every step of `train_epoch` (one per daily batch, in the
shuffled batch order), the labels used are a contiguous slice of the
label series pre-scaled by the fixed factor 100, the loss is the MSE over
exactly the non-NaN-label positions, the gradients handed to the
optimizer step are the raw backpropagated gradients clipped elementwise
into [-3, 3] (so every component lies in that range), and the optimizer
step consumes precisely those clipped gradients. -/
theorem train_step_semantics {Feat P : Type} (fwd : P → List Feat → List FP)
    (gradf : P → List Feat → List FP → List ℚ) (opt : P → List ℚ → P)
    (shuf : List (ℕ × ℕ) → List (ℕ × ℕ)) (θ0 : P)
    (x : List (ℕ × Feat)) (y : List FP) (recs : List (TrainRec P))
    (h : train_epoch fwd gradf opt shuf θ0 x y = Except.ok recs) :
    ∀ r ∈ recs,
      (∃ i c, r.pred = fwd r.thetaBefore (sliceTake (x.map Prod.snd) i c)
        ∧ r.labels = sliceTake (y.map scale100) i c)
      ∧ r.loss = mse (maskSelect r.pred r.labels (fun l => ! l.isnan))
      ∧ r.grads = r.rawGrads.map clip_grad_value
      ∧ (∀ g ∈ r.grads, -3 ≤ g ∧ g ≤ 3)
      ∧ r.thetaAfter = opt r.thetaBefore r.grads := by
  intro r hr
  rw [train_epoch] at h
  rcases hgd : get_daily_inter (x.map Prod.fst) with e | dic
  · rw [hgd] at h
    exact absurd h (by simp)
  · rw [hgd] at h
    simp only [Except.ok.injEq] at h
    subst h
    exact trainLoop_spec fwd gradf opt _ _ _ _ r hr

/-- C7 witness: `train_step_semantics` instantiated on a one-row table
with a NaN label and a gradient function returning no components. -/
theorem train_step_semantics_witness :
    FP.nan = mse (maskSelect [FP.fin 0] [FP.nan] (fun l => ! l.isnan)) := by
  have h := @train_step_semantics ℕ ℕ (fun _ b => b.map (fun _ => FP.fin 0))
    (fun _ _ _ => []) (fun θ _ => θ) id 0 [(0, 0)] [FP.nan]
    [⟨[FP.fin 0], [FP.nan], FP.nan, [], [], 0, 0⟩] rfl
  exact (h _ (List.mem_singleton.mpr rfl)).2.1

/-- C8 counterexample: `predict` does not return an index-aligned series
for every input table: on the empty table it raises the `IndexError`
coming from `get_daily_inter`, and on the one-row table [(5, 7)] the
forward pass raises batch-norm's `ValueError` on the single-sample daily
batch (`bn1` with `track_running_stats=False` normalizes with batch
statistics even in eval mode), so neither input yields a series. -/
theorem predict_failing_inputs_counterexample :
    predict (fun i : ℕ => i) (fun b : List ℕ => b.map (fun _ => (0 : ℚ)))
        ([] : List (ℕ × ℕ))
      = Except.error "index 0 is out of bounds for axis 0 with size 0"
    ∧ predict (fun i : ℕ => i) (fun b : List ℕ => b.map (fun _ => (0 : ℚ)))
        [((5 : ℕ), (7 : ℕ))]
      = Except.error "Expected more than 1 value per channel when training, got input size 1"
    ∧ ¬ ∃ out, predict (fun i : ℕ => i)
        (fun b : List ℕ => b.map (fun _ => (0 : ℚ))) [((5 : ℕ), (7 : ℕ))]
        = Except.ok out := by
  refine ⟨rfl, rfl, ?_⟩
  rintro ⟨out, hout⟩
  rw [show predict (fun i : ℕ => i)
      (fun b : List ℕ => b.map (fun _ => (0 : ℚ))) [((5 : ℕ), (7 : ℕ))]
    = Except.error "Expected more than 1 value per channel when training, got input size 1"
    from rfl] at hout
  exact Except.noConfusion hout

/-- C8 amended: for every non-empty input table in which every date has
at least two rows (no single-sample daily batch, which would make the
forward pass raise in `bn1`), and with the sequence encoder's shape
contract that the pipeline yields one scalar per input row, `predict`
succeeds and returns a series whose index equals the input table's
original row index — same length, same order, one prediction per row —
assembled by concatenating per-batch predictions from the unshuffled
date-ordered daily batches; the empty table instead raises `IndexError`
and a single-row date raises batch-norm's `ValueError`. -/
theorem predict_index_aligned {ι Feat : Type} (d : ι → ℕ)
    (f : List Feat → List ℚ) (rows : List (ι × Feat)) (hne : rows ≠ [])
    (hcount : ∀ k ∈ rows.map (fun r => d r.1),
      (rows.map (fun r => d r.1)).count k ≠ 1)
    (hf : ∀ b, (f b).length = b.length) :
    ∃ out, predict d f rows = Except.ok out
      ∧ out.map Prod.fst = rows.map Prod.fst
      ∧ out.length = rows.length := by
  have hdne : rows.map (fun r => d r.1) ≠ [] := by
    intro h0
    exact hne (List.map_eq_nil_iff.mp h0)
  have hsum : (groupSizes (rows.map (fun r => d r.1))).sum = rows.length := by
    rw [groupSizes_sum, List.length_map]
  have hbound : 0 + (groupSizes (rows.map (fun r => d r.1))).sum
      ≤ (rows.map Prod.snd).length := by
    rw [hsum, List.length_map]
    omega
  have hok := predictBatches_ok f (rows.map Prod.snd)
    (groupSizes (rows.map (fun r => d r.1))) 0 hbound (groupSizes_ne_one hcount)
  have hflat : ((((ex 0 (groupSizes (rows.map (fun r => d r.1)))).zip
      (groupSizes (rows.map (fun r => d r.1)))).map
        (fun p => f (sliceTake (rows.map Prod.snd) p.1 p.2))).flatten).length
      = rows.length := by
    rw [slice_len_flatten f hf (rows.map Prod.snd) _ 0 hbound]
    exact hsum
  rw [predict, get_daily_inter_eq_ex hdne]
  simp only [hok, if_pos hflat]
  refine ⟨_, rfl, ?_, ?_⟩
  · exact List.map_fst_zip _ _ (by rw [hflat, List.length_map])
  · rw [List.length_zip, hflat, List.length_map, Nat.min_self]

/-- C8 amended witness: `predict_index_aligned` instantiated on a
two-row, one-date table (both rows share date 0, so the single daily
batch has two samples) with the constant-zero forward function. -/
theorem predict_index_aligned_witness :
    ∃ out, predict (fun _ : ℕ => (0 : ℕ))
        (fun b : List ℕ => b.map (fun _ => (0 : ℚ)))
        [((5 : ℕ), (7 : ℕ)), ((6 : ℕ), (8 : ℕ))]
      = Except.ok out
      ∧ out.map Prod.fst
          = [((5 : ℕ), (7 : ℕ)), ((6 : ℕ), (8 : ℕ))].map Prod.fst
      ∧ out.length = [((5 : ℕ), (7 : ℕ)), ((6 : ℕ), (8 : ℕ))].length :=
  predict_index_aligned (fun _ : ℕ => (0 : ℕ))
    (fun b : List ℕ => b.map (fun _ => (0 : ℚ)))
    [((5 : ℕ), (7 : ℕ)), ((6 : ℕ), (8 : ℕ))]
    (by simp) (by decide) (fun b => by rw [List.length_map])

end Gats
